import Mathlib

/-!
Shallow embedding of the webhook ingestion and subscription-sync pipeline of the
`nextjs-saas-boilerplate` repository.

Sources embedded:
- `src/lib/db/schema.ts` (tables `plans`, `subscriptions`, `webhook_events`; the
  `user_id` column on `webhook_events` is added by the migration
  `ALTER TABLE "webhook_events" ADD COLUMN "user_id" uuid` shipped with the repo);
- `src/lib/db/queries/billing.ts` (plan/subscription/webhook-event queries);
- `src/lib/services/webhooks.ts` (store, process, per-user recovery);
- `src/lib/services/billing.ts` (`getUserSubscription`);
- `src/app/api/webhooks/lemonsqueezy/route.ts` (the `POST` receiver).

Modelling conventions:
- Tables are lists kept in insertion order, which coincides with `createdAt`
  order, so `ORDER BY created_at` is the identity on the model.
- Generated uuid primary keys become `Nat` counters carried in the database state.
- `timestamp` columns that the pipeline only copies from the payload
  (`renews_at`, `ends_at`, `trial_ends_at`) are kept as the payload strings;
  the bookkeeping timestamps `createdAt`/`updatedAt`/`processedAt` are not
  modelled (no claim mentions them).
- JavaScript exceptions become explicit result values: a thrown message is
  carried in an `Option String` / `Except String` component.
- `JSON.parse` of the raw request body is modelled by the request carrying the
  parse result (`Option` of the structured payload) next to the raw string;
  HMAC-SHA256 is an external library call and is passed in as a function
  argument `hmacSha256Hex : secret → message → hex digest`.
-/

namespace SaasWebhooks

/-- `attributes.urls` object of a LemonSqueezy subscription payload. -/
structure Urls where
  update_payment_method : String
  customer_portal : String
deriving Repr, DecidableEq

/-- `meta.custom_data` object; `user_id` is `none` when the field is absent. -/
structure CustomData where
  user_id : Option String
deriving Repr, DecidableEq

/-- `meta` object of the webhook payload. -/
structure Meta where
  event_name : Option String
  custom_data : Option CustomData
deriving Repr, DecidableEq

/-- `data.attributes` of a subscription payload (the fields the pipeline reads). -/
structure Attributes where
  variant_id : Nat
  customer_id : Nat
  order_id : Nat
  status : String
  status_formatted : String
  renews_at : Option String
  ends_at : Option String
  trial_ends_at : Option String
  urls : Urls
deriving Repr, DecidableEq

/-- `data` object of the webhook payload. -/
structure PayloadData where
  id : String
  attributes : Attributes
deriving Repr, DecidableEq

/-- A parsed LemonSqueezy webhook payload (`lib/types` `LemonSqueezyWebhookPayload`). -/
structure LemonSqueezyWebhookPayload where
  meta : Meta
  data : PayloadData
deriving Repr, DecidableEq

/-- Row of the `plans` table (`schema.ts`). -/
structure Plan where
  id : String
  variantId : String
  productId : String
  name : String
  price : String
  interval : String
  isActive : Bool
  sort : Nat
deriving Repr, DecidableEq

/-- Row of the `subscriptions` table (`schema.ts`). -/
structure Subscription where
  id : Nat
  userId : String
  planId : String
  lemonSqueezyId : String
  customerId : String
  orderId : String
  status : String
  statusFormatted : String
  renewsAt : Option String
  endsAt : Option String
  trialEndsAt : Option String
  updatePaymentMethodUrl : String
  customerPortalUrl : String
deriving Repr, DecidableEq

/-- The insert/update payload for `upsertSubscription` (`Omit<NewSubscription, id>`). -/
structure SubscriptionData where
  userId : String
  planId : String
  lemonSqueezyId : String
  customerId : String
  orderId : String
  status : String
  statusFormatted : String
  renewsAt : Option String
  endsAt : Option String
  trialEndsAt : Option String
  updatePaymentMethodUrl : String
  customerPortalUrl : String
deriving Repr, DecidableEq

/-- Row of the `webhook_events` table (`schema.ts` plus the `user_id` migration). -/
structure WebhookEvent where
  id : Nat
  eventName : String
  userId : Option String
  body : LemonSqueezyWebhookPayload
  processed : Bool
  processingError : Option String
deriving Repr, DecidableEq

/-- The database state: the three tables owned by the pipeline, plus the id
counters standing in for uuid generation. -/
structure DB where
  plans : List Plan
  subscriptions : List Subscription
  webhookEvents : List WebhookEvent
  nextEventId : Nat
  nextSubscriptionId : Nat
deriving Repr, DecidableEq

/-- `queries/billing.ts` `getPlanByVariantId`: first plan whose `variantId` matches. -/
def getPlanByVariantId (db : DB) (variantId : String) : Option Plan :=
  db.plans.find? (fun p => p.variantId == variantId)

/-- The statuses treated as entitled by `getUserSubscriptionWithPlan`
(`inArray(subscriptions.status, ['active', 'on_trial', 'past_due'])`). -/
def entitledStatuses : List String := ["active", "on_trial", "past_due"]

/-- `queries/billing.ts` `getUserSubscriptionWithPlan`: inner join of
`subscriptions` with `plans` on `planId`, filtered to the given user and the
entitled statuses, `LIMIT 1`. -/
def getUserSubscriptionWithPlan (db : DB) (userId : String) :
    Option (Subscription × Plan) :=
  (db.subscriptions.filterMap (fun s =>
    match db.plans.find? (fun p => p.id == s.planId) with
    | some p =>
        if s.userId == userId && entitledStatuses.contains s.status then
          some (s, p)
        else none
    | none => none)).head?

/-- The `DO UPDATE SET` clause of `upsertSubscription`: overwrite every data
field of the conflicting row, keeping its primary key. -/
def applySubscriptionData (d : SubscriptionData) (s : Subscription) : Subscription :=
  { s with userId := d.userId, planId := d.planId,
           customerId := d.customerId, orderId := d.orderId,
           status := d.status, statusFormatted := d.statusFormatted,
           renewsAt := d.renewsAt, endsAt := d.endsAt,
           trialEndsAt := d.trialEndsAt,
           updatePaymentMethodUrl := d.updatePaymentMethodUrl,
           customerPortalUrl := d.customerPortalUrl }

/-- The row inserted by `upsertSubscription` when no conflict occurs. -/
def insertedSubscription (db : DB) (d : SubscriptionData) : Subscription :=
  { id := db.nextSubscriptionId, userId := d.userId, planId := d.planId,
    lemonSqueezyId := d.lemonSqueezyId, customerId := d.customerId,
    orderId := d.orderId, status := d.status,
    statusFormatted := d.statusFormatted, renewsAt := d.renewsAt,
    endsAt := d.endsAt, trialEndsAt := d.trialEndsAt,
    updatePaymentMethodUrl := d.updatePaymentMethodUrl,
    customerPortalUrl := d.customerPortalUrl }

/-- `queries/billing.ts` `upsertSubscription`: `INSERT ... ON CONFLICT
(lemonsqueezy_id) DO UPDATE SET <all data fields>`. In the model the conflicting
rows (at most one under the unique constraint) are updated in place, keeping
their primary key. -/
def upsertSubscription (db : DB) (d : SubscriptionData) : DB :=
  if db.subscriptions.any (fun s => s.lemonSqueezyId == d.lemonSqueezyId) then
    { db with subscriptions := db.subscriptions.map (fun s =>
        if s.lemonSqueezyId == d.lemonSqueezyId then applySubscriptionData d s
        else s) }
  else
    { db with
      subscriptions := db.subscriptions ++ [insertedSubscription db d],
      nextSubscriptionId := db.nextSubscriptionId + 1 }

/-- `queries/billing.ts` `createWebhookEvent`: insert a new row, returning it. -/
def createWebhookEvent (db : DB) (eventName : String) (userId : Option String)
    (body : LemonSqueezyWebhookPayload) (processed : Bool) :
    WebhookEvent × DB :=
  let ev : WebhookEvent :=
    { id := db.nextEventId, eventName := eventName, userId := userId,
      body := body, processed := processed, processingError := none }
  (ev, { db with webhookEvents := db.webhookEvents ++ [ev],
                 nextEventId := db.nextEventId + 1 })

/-- `queries/billing.ts` `getWebhookEventById`. -/
def getWebhookEventById (db : DB) (id : Nat) : Option WebhookEvent :=
  db.webhookEvents.find? (fun e => e.id == id)

/-- `queries/billing.ts` `markWebhookEventAsProcessed`:
`UPDATE webhook_events SET processed = true WHERE id = ?`. -/
def markWebhookEventAsProcessed (db : DB) (id : Nat) : DB :=
  { db with webhookEvents := db.webhookEvents.map (fun e =>
      if e.id == id then { e with processed := true } else e) }

/-- `queries/billing.ts` `markWebhookEventAsFailed`:
`UPDATE webhook_events SET processed = true, processing_error = ? WHERE id = ?`. -/
def markWebhookEventAsFailed (db : DB) (id : Nat) (error : String) : DB :=
  { db with webhookEvents := db.webhookEvents.map (fun e =>
      if e.id == id then { e with processed := true, processingError := some error }
      else e) }

/-- `queries/billing.ts` `getUnprocessedWebhookEvents`: events with
`processed = false`, oldest first (list order), up to `limit`. -/
def getUnprocessedWebhookEvents (db : DB) (limit : Nat) : List WebhookEvent :=
  (db.webhookEvents.filter (fun e => e.processed == false)).take limit

/-- JavaScript `String.prototype.startsWith`: a character-level prefix test.
(Defined over the character lists so that concrete runs reduce in the kernel.) -/
def strStartsWith (s pre : String) : Bool := pre.data.isPrefixOf s.data

/-- Modelled from the spec: `getUserUnprocessedSubscriptionWebhooks` is imported
by `src/lib/services/webhooks.ts` from the billing queries module, but its
definition is not among the provided sources. Section 4.3 Contract B of the spec
describes it as fetching the given user's unprocessed subscription-lifecycle
events, so the model filters the event log to rows attributed to the user, not
yet processed, whose event name is in the `subscription_` family. -/
def getUserUnprocessedSubscriptionWebhooks (db : DB) (userId : String) :
    List WebhookEvent :=
  db.webhookEvents.filter (fun e =>
    e.userId == some userId && e.processed == false &&
      strStartsWith e.eventName "subscription_")

/-- The JavaScript expression `meta.custom_data?.user_id` followed by a falsy
test (`|| null` in `storeWebhookEvent`, `if (!userId) throw` in
`handleSubscriptionEvent`): a missing `custom_data`, a missing `user_id`, and
the empty string all collapse to `none`. -/
def extractedUserId (meta : Meta) : Option String :=
  match meta.custom_data with
  | none => none
  | some cd =>
      match cd.user_id with
      | none => none
      | some u => if u = "" then none else some u

/-- `services/webhooks.ts` `storeWebhookEvent`: extract the optional user id and
insert a `processed = false` row holding the payload. -/
def storeWebhookEvent (db : DB) (eventName : String)
    (payload : LemonSqueezyWebhookPayload) : WebhookEvent × DB :=
  createWebhookEvent db eventName (extractedUserId payload.meta) payload false

/-- The `subscriptionData` record built in `handleSubscriptionEvent`. -/
def subscriptionDataOfPayload (payload : LemonSqueezyWebhookPayload)
    (userId : String) (plan : Plan) : SubscriptionData :=
  { userId := userId, planId := plan.id,
    lemonSqueezyId := payload.data.id,
    customerId := toString payload.data.attributes.customer_id,
    orderId := toString payload.data.attributes.order_id,
    status := payload.data.attributes.status,
    statusFormatted := payload.data.attributes.status_formatted,
    renewsAt := payload.data.attributes.renews_at,
    endsAt := payload.data.attributes.ends_at,
    trialEndsAt := payload.data.attributes.trial_ends_at,
    updatePaymentMethodUrl := payload.data.attributes.urls.update_payment_method,
    customerPortalUrl := payload.data.attributes.urls.customer_portal }

/-- `services/webhooks.ts` `handleSubscriptionEvent`: resolve the user from
`meta.custom_data`, resolve the plan by variant id, and upsert the subscription;
a missing user or plan is a thrown error (`.error`). -/
def handleSubscriptionEvent (db : DB) (payload : LemonSqueezyWebhookPayload) :
    Except String DB :=
  match extractedUserId payload.meta with
  | none => .error "No user_id found in webhook custom_data"
  | some userId =>
      match getPlanByVariantId db (toString payload.data.attributes.variant_id) with
      | none =>
          .error ("Plan with variantId " ++
            toString payload.data.attributes.variant_id ++ " not found")
      | some plan =>
          .ok (upsertSubscription db (subscriptionDataOfPayload payload userId plan))

/-- `services/webhooks.ts` `processWebhookEvent`. The returned `Option String`
is the error the function throws to its caller (`none` on success or on the
already-processed no-op); the returned `DB` reflects every write performed
before the throw, since the catch block persists `markWebhookEventAsFailed`
before re-raising. Reading `.startsWith` off an absent `meta.event_name` is the
JavaScript TypeError caught by the same catch block. -/
def processWebhookEvent (db : DB) (webhookEventId : Nat) : DB × Option String :=
  match getWebhookEventById db webhookEventId with
  | none => (db, some ("Webhook event " ++ toString webhookEventId ++ " not found"))
  | some webhookEvent =>
      if webhookEvent.processed then (db, none)
      else
        match webhookEvent.body.meta.event_name with
        | none =>
            (markWebhookEventAsFailed db webhookEventId
              "Cannot read properties of undefined",
             some "Cannot read properties of undefined")
        | some eventName =>
            if strStartsWith eventName "subscription_" then
              match handleSubscriptionEvent db webhookEvent.body with
              | .ok db2 => (markWebhookEventAsProcessed db2 webhookEventId, none)
              | .error msg => (markWebhookEventAsFailed db webhookEventId msg, some msg)
            else
              (markWebhookEventAsProcessed db webhookEventId, none)

/-- `services/webhooks.ts` `processUserPendingWebhooks`: fetch the user's pending
subscription webhooks; if none, report `false`; otherwise process each in order,
catching (and dropping) per-event errors, and report `true`. -/
def processUserPendingWebhooks (db : DB) (userId : String) : DB × Bool :=
  let pendingWebhooks := getUserUnprocessedSubscriptionWebhooks db userId
  if pendingWebhooks.isEmpty then (db, false)
  else
    (pendingWebhooks.foldl (fun acc w => (processWebhookEvent acc w.id).1) db, true)

/-- `services/billing.ts` `getUserSubscription`: direct lookup; on a miss, run
the per-user recovery once and, when it reports work done, re-query once. -/
def getUserSubscription (db : DB) (userId : String) :
    Option (Subscription × Plan) × DB :=
  match getUserSubscriptionWithPlan db userId with
  | some s => (some s, db)
  | none =>
      let res := processUserPendingWebhooks db userId
      if res.2 then (getUserSubscriptionWithPlan res.1 userId, res.1)
      else (none, res.1)

/-- An inbound request to the webhook route: the raw body string, the result of
`JSON.parse` on it (`none` models the SyntaxError), and the optional
`x-signature` header. -/
structure WebhookRequest where
  rawBody : String
  parsedBody : Option LemonSqueezyWebhookPayload
  signature : Option String
deriving Repr, DecidableEq

/-- The HTTP response of the route: status code and response body tag. -/
structure WebhookResponse where
  status : Nat
  body : String
deriving Repr, DecidableEq

/-- `app/api/webhooks/lemonsqueezy/route.ts` `POST`. `hmacSha256Hex` stands for
the node `crypto` HMAC (secret, message → hex digest). The third component of
the result is the event id handed to the `setImmediate` continuation: the
reconciliation scheduled to run only after the response is returned. A body
that fails `JSON.parse` throws before any other step and lands in the outer
catch, which answers 500. The event-name guard `if (!eventName)` is a JS falsy
test: it rejects both an absent `meta.event_name` and the empty string. -/
def POST (hmacSha256Hex : String → String → String) (webhookSecret : String)
    (request : WebhookRequest) (db : DB) :
    WebhookResponse × DB × Option Nat :=
  match request.parsedBody with
  | none => ({ status := 500, body := "Internal server error" }, db, none)
  | some body =>
      match request.signature with
      | none => ({ status := 401, body := "Missing signature" }, db, none)
      | some signature =>
          let digest := hmacSha256Hex webhookSecret request.rawBody
          if digest ≠ signature then
            ({ status := 401, body := "Invalid signature" }, db, none)
          else
            match body.meta.event_name with
            | none => ({ status := 400, body := "Invalid payload" }, db, none)
            | some eventName =>
                if eventName = "" then
                  ({ status := 400, body := "Invalid payload" }, db, none)
                else
                  let stored := storeWebhookEvent db eventName body
                  ({ status := 200, body := "received" }, stored.2, some stored.1.id)

/-- Definition following the spec's words for claim C7, to be compared with the
code's `extractedUserId`: "the user reference extracted from the payload's
`meta.custom_data.user_id` (null when that custom data is absent)". -/
def specUserId (meta : Meta) : Option String :=
  match meta.custom_data with
  | none => none
  | some cd => cd.user_id

/-! ### Concrete fixtures

Used to instantiate the theorems below at explicit inputs (witnesses and
counterexamples). `exHmac` is a stand-in keyed digest function for the node
`crypto` HMAC, only needed to drive the receiver on concrete requests. -/

/-- A toy keyed digest standing in for HMAC-SHA256 in concrete runs. -/
def exHmac : String → String → String := fun secret message => secret ++ "/" ++ message

/-- A catalog plan with LemonSqueezy variant id `"7"`. -/
def exPlan : Plan :=
  { id := "plan-1", variantId := "7", productId := "prod-1", name := "Pro",
    price := "999", interval := "month", isActive := true, sort := 0 }

/-- A `subscription_created` payload for user `"u1"`, subscription `"s1"`,
variant `7`. -/
def exPayload : LemonSqueezyWebhookPayload :=
  { meta := { event_name := some "subscription_created",
              custom_data := some { user_id := some "u1" } },
    data := { id := "s1",
              attributes := { variant_id := 7, customer_id := 3, order_id := 4,
                              status := "active", status_formatted := "Active",
                              renews_at := some "2026-01-01", ends_at := none,
                              trial_ends_at := none,
                              urls := { update_payment_method := "upm",
                                        customer_portal := "cp" } } } }

/-- A second payload for the same subscription `"s1"` (renewal gone past due). -/
def exPayload2 : LemonSqueezyWebhookPayload :=
  { meta := { event_name := some "subscription_updated",
              custom_data := some { user_id := some "u2" } },
    data := { id := "s1",
              attributes := { variant_id := 7, customer_id := 3, order_id := 4,
                              status := "past_due", status_formatted := "Past due",
                              renews_at := some "2026-02-01", ends_at := some "2026-03-01",
                              trial_ends_at := none,
                              urls := { update_payment_method := "upm2",
                                        customer_portal := "cp2" } } } }

/-- A payload whose `custom_data.user_id` is present but equal to `""`. -/
def exPayloadEmptyUser : LemonSqueezyWebhookPayload :=
  { exPayload with
    meta := { event_name := some "subscription_created",
              custom_data := some { user_id := some "" } } }

/-- A database holding only the catalog plan. -/
def exDB : DB :=
  { plans := [exPlan], subscriptions := [], webhookEvents := [],
    nextEventId := 0, nextSubscriptionId := 0 }

/-- A correctly signed delivery of `exPayload` under secret `"sec"`. -/
def exReq : WebhookRequest :=
  { rawBody := "raw", parsedBody := some exPayload, signature := some "sec/raw" }

/-- A delivery whose body fails `JSON.parse` and that carries no signature. -/
def exReqNoSigBadJson : WebhookRequest :=
  { rawBody := "not json", parsedBody := none, signature := none }

/-- A delivery whose body fails `JSON.parse` but that does carry a signature. -/
def exReqBadJson : WebhookRequest :=
  { rawBody := "\x7b", parsedBody := none, signature := some "sec/x" }

/-- A parseable delivery carrying a signature that does not match the HMAC. -/
def exReqBadSig : WebhookRequest :=
  { rawBody := "raw", parsedBody := some exPayload, signature := some "bad" }

/-- A stored, unprocessed webhook event for `exPayload` (as the route stores it). -/
def exEvent : WebhookEvent :=
  { id := 0, eventName := "subscription_created", userId := some "u1",
    body := exPayload, processed := false, processingError := none }

/-- A database where `exEvent` is pending and the user has no subscription. -/
def exDBPending : DB :=
  { plans := [exPlan], subscriptions := [], webhookEvents := [exEvent],
    nextEventId := 1, nextSubscriptionId := 0 }

/-- A pending event whose plan is missing from the catalog (variant `9`):
reconciling it fails. -/
def exEventNoPlan : WebhookEvent :=
  { id := 0, eventName := "subscription_created", userId := some "u6",
    body := { meta := { event_name := some "subscription_created",
                        custom_data := some { user_id := some "u6" } },
              data := { id := "s6",
                        attributes := { variant_id := 9, customer_id := 3, order_id := 4,
                                        status := "active", status_formatted := "Active",
                                        renews_at := none, ends_at := none,
                                        trial_ends_at := none,
                                        urls := { update_payment_method := "u",
                                                  customer_portal := "c" } } } },
    processed := false, processingError := none }

/-- A database with an empty plan catalog and the doomed event pending. -/
def exDBNoPlan : DB :=
  { plans := [], subscriptions := [], webhookEvents := [exEventNoPlan],
    nextEventId := 1, nextSubscriptionId := 0 }

/-- A pre-existing subscription row for `"s1"` owned by another user and plan. -/
def exSubOld : Subscription :=
  { id := 0, userId := "u0", planId := "plan-0", lemonSqueezyId := "s1",
    customerId := "9", orderId := "9", status := "active",
    statusFormatted := "Active", renewsAt := none, endsAt := none,
    trialEndsAt := none, updatePaymentMethodUrl := "x", customerPortalUrl := "y" }

/-- A database where `"s1"` already belongs to user `"u0"` and plan `"plan-0"`. -/
def exDBOwned : DB :=
  { plans := [exPlan], subscriptions := [exSubOld], webhookEvents := [],
    nextEventId := 0, nextSubscriptionId := 1 }

/-! ### Helper lemmas -/

/-- `find?` by id commutes with an id-preserving update of the rows matching
that id (the shape of the two `UPDATE ... WHERE id = ?` queries). -/
theorem find?_update_id (l : List WebhookEvent) (i : Nat)
    (u : WebhookEvent → WebhookEvent) (hu : ∀ e, (u e).id = e.id) :
    (l.map (fun e => if e.id == i then u e else e)).find? (fun e => e.id == i)
      = (l.find? (fun e => e.id == i)).map u := by
  induction l with
  | nil => rfl
  | cons a l ih =>
      by_cases h : (a.id == i) = true
      · simp only [List.map_cons]
        rw [List.find?_cons_of_pos _ (by simp [h, hu]),
          List.find?_cons_of_pos (p := fun e => e.id == i) l h]
        simp [h]
      · simp only [List.map_cons]
        rw [List.find?_cons_of_neg _ (by simp [h, hu]),
          List.find?_cons_of_neg (p := fun e => e.id == i) l h, ih]

theorem getWebhookEventById_markProcessed (db : DB) (i : Nat) :
    getWebhookEventById (markWebhookEventAsProcessed db i) i
      = (getWebhookEventById db i).map (fun e => { e with processed := true }) :=
  find?_update_id db.webhookEvents i _ (fun _ => rfl)

theorem getWebhookEventById_markFailed (db : DB) (i : Nat) (msg : String) :
    getWebhookEventById (markWebhookEventAsFailed db i msg) i
      = (getWebhookEventById db i).map
          (fun e => { e with processed := true, processingError := some msg }) :=
  find?_update_id db.webhookEvents i _ (fun _ => rfl)

theorem getWebhookEventById_id (db : DB) (i : Nat) (ev : WebhookEvent)
    (h : getWebhookEventById db i = some ev) : ev.id = i := by
  have := List.find?_some h
  simpa using this

theorem upsertSubscription_webhookEvents (db : DB) (d : SubscriptionData) :
    (upsertSubscription db d).webhookEvents = db.webhookEvents := by
  unfold upsertSubscription
  split <;> rfl

theorem upsertSubscription_plans (db : DB) (d : SubscriptionData) :
    (upsertSubscription db d).plans = db.plans := by
  unfold upsertSubscription
  split <;> rfl

/-- Success inversion for the reconciler: a successful run means the user and
plan resolved and the result is exactly the upsert. -/
theorem handleSubscriptionEvent_ok (db : DB) (p : LemonSqueezyWebhookPayload)
    (db' : DB) (h : handleSubscriptionEvent db p = .ok db') :
    ∃ u plan, extractedUserId p.meta = some u ∧
      getPlanByVariantId db (toString p.data.attributes.variant_id) = some plan ∧
      db' = upsertSubscription db (subscriptionDataOfPayload p u plan) := by
  unfold handleSubscriptionEvent at h
  cases hu : extractedUserId p.meta with
  | none => rw [hu] at h; exact absurd h (by simp)
  | some u =>
      rw [hu] at h
      cases hp : getPlanByVariantId db (toString p.data.attributes.variant_id) with
      | none => rw [hp] at h; exact absurd h (by simp)
      | some plan =>
          rw [hp] at h
          simp only [Except.ok.injEq] at h
          exact ⟨u, plan, rfl, rfl, h.symm⟩

theorem handleSubscriptionEvent_ok_of (db : DB) (p : LemonSqueezyWebhookPayload)
    (u : String) (plan : Plan) (hu : extractedUserId p.meta = some u)
    (hp : getPlanByVariantId db (toString p.data.attributes.variant_id) = some plan) :
    handleSubscriptionEvent db p
      = .ok (upsertSubscription db (subscriptionDataOfPayload p u plan)) := by
  unfold handleSubscriptionEvent
  rw [hu, hp]

theorem handleSubscriptionEvent_events (db : DB) (p : LemonSqueezyWebhookPayload)
    (db' : DB) (h : handleSubscriptionEvent db p = .ok db') :
    db'.webhookEvents = db.webhookEvents := by
  obtain ⟨u, plan, _, _, rfl⟩ := handleSubscriptionEvent_ok db p db' h
  exact upsertSubscription_webhookEvents ..

/-- The idempotency guard: processing an already-processed event is a pure
read returning no error. -/
theorem processWebhookEvent_noop (db : DB) (ev : WebhookEvent)
    (hfind : getWebhookEventById db ev.id = some ev) (hp : ev.processed = true) :
    processWebhookEvent db ev.id = (db, none) := by
  unfold processWebhookEvent
  rw [hfind]
  simp [hp]

/-- Every path of a first processing run (skip, success, failure) leaves the
event row with `processed = true`. -/
theorem processWebhookEvent_sets_processed (db : DB) (ev : WebhookEvent)
    (hfind : getWebhookEventById db ev.id = some ev) (hp : ev.processed = false) :
    ∃ ev1, getWebhookEventById (processWebhookEvent db ev.id).1 ev.id = some ev1
      ∧ ev1.processed = true ∧ ev1.id = ev.id := by
  unfold processWebhookEvent
  rw [hfind]
  simp only [hp, Bool.false_eq_true, if_false]
  cases hn : ev.body.meta.event_name with
  | none =>
      refine ⟨{ ev with
                  processed := true,
                  processingError := some "Cannot read properties of undefined" },
        ?_, rfl, rfl⟩
      rw [getWebhookEventById_markFailed, hfind]
      rfl
  | some n =>
      by_cases hs : strStartsWith n "subscription_" = true
      · simp only [hs, if_true]
        cases hh : handleSubscriptionEvent db ev.body with
        | ok db2 =>
            refine ⟨{ ev with processed := true }, ?_, rfl, rfl⟩
            have hfind2 : getWebhookEventById db2 ev.id = some ev := by
              unfold getWebhookEventById
              rw [handleSubscriptionEvent_events db ev.body db2 hh]
              exact hfind
            rw [getWebhookEventById_markProcessed, hfind2]
            rfl
        | error msg =>
            refine ⟨{ ev with processed := true, processingError := some msg },
              ?_, rfl, rfl⟩
            rw [getWebhookEventById_markFailed, hfind]
            rfl
      · simp only [hs, Bool.false_eq_true, if_false]
        refine ⟨{ ev with processed := true }, ?_, rfl, rfl⟩
        rw [getWebhookEventById_markProcessed, hfind]
        rfl

theorem markProcessed_preserves (db : DB) (i : Nat) (ev : WebhookEvent)
    (hmem : ev ∈ db.webhookEvents) :
    ∃ ev2 ∈ (markWebhookEventAsProcessed db i).webhookEvents,
      ev2.id = ev.id ∧ ev2.body = ev.body := by
  refine ⟨_, List.mem_map_of_mem _ hmem, ?_, ?_⟩ <;>
    by_cases h : (ev.id == i) = true <;> simp [h]

theorem markFailed_preserves (db : DB) (i : Nat) (msg : String) (ev : WebhookEvent)
    (hmem : ev ∈ db.webhookEvents) :
    ∃ ev2 ∈ (markWebhookEventAsFailed db i msg).webhookEvents,
      ev2.id = ev.id ∧ ev2.body = ev.body := by
  refine ⟨_, List.mem_map_of_mem _ hmem, ?_, ?_⟩ <;>
    by_cases h : (ev.id == i) = true <;> simp [h]

/-- Reconciliation never deletes an event row: its id and stored payload
survive any processing run. -/
theorem processWebhookEvent_preserves (db : DB) (i : Nat) (ev : WebhookEvent)
    (hmem : ev ∈ db.webhookEvents) :
    ∃ ev2 ∈ (processWebhookEvent db i).1.webhookEvents,
      ev2.id = ev.id ∧ ev2.body = ev.body := by
  unfold processWebhookEvent
  cases hf : getWebhookEventById db i with
  | none => exact ⟨ev, hmem, rfl, rfl⟩
  | some w =>
      by_cases hw : w.processed = true
      · simp only [hw, if_true]
        exact ⟨ev, hmem, rfl, rfl⟩
      · have hw' : w.processed = false := by simpa using hw
        simp only [hw', Bool.false_eq_true, if_false]
        cases hn : w.body.meta.event_name with
        | none => exact markFailed_preserves db i _ ev hmem
        | some n =>
            by_cases hs : strStartsWith n "subscription_" = true
            · simp only [hs, if_true]
              cases hh : handleSubscriptionEvent db w.body with
              | ok db2 =>
                  have hmem2 : ev ∈ db2.webhookEvents := by
                    rw [handleSubscriptionEvent_events db w.body db2 hh]
                    exact hmem
                  exact markProcessed_preserves db2 i ev hmem2
              | error msg => exact markFailed_preserves db i msg ev hmem
            · simp only [hs, Bool.false_eq_true, if_false]
              exact markProcessed_preserves db i ev hmem

/-! ### Claim theorems -/

/-- C1: Reconciliation is idempotent: for a stored webhook event, running
`processWebhookEvent` twice leaves exactly the database state of running it
once (hence the same subscription rows and no duplicate), the event row carries
`processed = true` after the first run (hence after both), and when the event is
already processed the call returns immediately with no write at all. -/
theorem reconcile_idempotent (db : DB) (ev : WebhookEvent)
    (hfind : getWebhookEventById db ev.id = some ev) :
    (processWebhookEvent (processWebhookEvent db ev.id).1 ev.id).1
        = (processWebhookEvent db ev.id).1
    ∧ (∃ ev1, getWebhookEventById (processWebhookEvent db ev.id).1 ev.id = some ev1
        ∧ ev1.processed = true)
    ∧ (ev.processed = true → processWebhookEvent db ev.id = (db, none)) := by
  by_cases hp : ev.processed = true
  · have h1 := processWebhookEvent_noop db ev hfind hp
    have hfst : (processWebhookEvent db ev.id).1 = db := by rw [h1]
    refine ⟨?_, ⟨ev, ?_, hp⟩, fun _ => h1⟩
    · rw [hfst]
      exact hfst
    · rw [hfst]
      exact hfind
  · have hp' : ev.processed = false := by simpa using hp
    obtain ⟨ev1, hev1, hp1, hid1⟩ := processWebhookEvent_sets_processed db ev hfind hp'
    have hfind1 : getWebhookEventById (processWebhookEvent db ev.id).1 ev1.id = some ev1 := by
      rw [hid1]
      exact hev1
    have h2 := processWebhookEvent_noop _ ev1 hfind1 hp1
    rw [hid1] at h2
    exact ⟨by rw [h2], ⟨ev1, hev1, hp1⟩, fun hc => absurd hc hp⟩

/-- Witness for C1 at the concrete pending event `exEvent` in `exDBPending`. -/
theorem reconcile_idempotent_witness :
    (processWebhookEvent (processWebhookEvent exDBPending exEvent.id).1 exEvent.id).1
      = (processWebhookEvent exDBPending exEvent.id).1 :=
  (reconcile_idempotent exDBPending exEvent rfl).1

/-- C2: Store-before-process: a delivery with a verifying signature and an
event name (a nonempty one — the route's `if (!eventName)` falsy guard rejects
the empty string with 400) is answered `200 {received: true}`, and at response
time the database already holds a `WebhookEvent` row with the verbatim payload
and `processed = false`; the row (its id and payload) survives whatever the
subsequently scheduled reconciliation of that id does, and it is untouched when
that reconciliation never runs. -/
theorem store_before_process (hmacSha256Hex : String → String → String)
    (webhookSecret : String) (request : WebhookRequest) (db : DB)
    (payload : LemonSqueezyWebhookPayload) (sig eventName : String)
    (hparse : request.parsedBody = some payload)
    (hsig : request.signature = some sig)
    (hver : hmacSha256Hex webhookSecret request.rawBody = sig)
    (hname : payload.meta.event_name = some eventName)
    (hne : eventName ≠ "") :
    (POST hmacSha256Hex webhookSecret request db).1 = { status := 200, body := "received" }
    ∧ ∃ ev : WebhookEvent,
        (POST hmacSha256Hex webhookSecret request db).2.2 = some ev.id
        ∧ ev ∈ (POST hmacSha256Hex webhookSecret request db).2.1.webhookEvents
        ∧ ev.eventName = eventName ∧ ev.body = payload ∧ ev.processed = false
        ∧ ∀ r : DB × Option String,
            r = processWebhookEvent (POST hmacSha256Hex webhookSecret request db).2.1 ev.id →
            ∃ ev2 ∈ r.1.webhookEvents, ev2.id = ev.id ∧ ev2.body = payload := by
  unfold POST
  rw [hparse, hsig]
  dsimp only
  simp only [hver, ne_eq, not_true_eq_false, if_false]
  rw [hname]
  dsimp only
  rw [if_neg hne]
  refine ⟨rfl, (storeWebhookEvent db eventName payload).1, rfl, ?_, rfl, rfl, rfl, ?_⟩
  · exact List.mem_append_right _ (List.mem_singleton_self _)
  · intro r hr
    subst hr
    exact processWebhookEvent_preserves _ _ _
      (List.mem_append_right _ (List.mem_singleton_self _))

/-- Witness for C2 at the concrete signed delivery `exReq`. -/
theorem store_before_process_witness :
    (POST exHmac "sec" exReq exDB).1 = { status := 200, body := "received" } :=
  (store_before_process exHmac "sec" exReq exDB exPayload "sec/raw"
    "subscription_created" rfl rfl rfl rfl (by decide)).1

/-- C3 counterexample: a POST with a missing `x-signature` header but an
unparseable body is answered 500, not 401 — `JSON.parse` runs before the
signature check and its exception reaches the catch-all handler. (No event row
is created either way.) -/
theorem signature_enforcement_counterexample :
    exReqNoSigBadJson.signature = none
    ∧ (POST exHmac "sec" exReqNoSigBadJson exDB).1.status = 500
    ∧ (POST exHmac "sec" exReqNoSigBadJson exDB).1.status ≠ 401
    ∧ (POST exHmac "sec" exReqNoSigBadJson exDB).2.1 = exDB :=
  ⟨rfl, rfl, by decide, rfl⟩

/-- C3 amended: for every POST whose body parses as JSON, a missing or
mismatched `x-signature` is answered 401; with an unparseable body the same
delivery is answered 500; in both cases no table is written. -/
theorem signature_enforcement (hmacSha256Hex : String → String → String)
    (webhookSecret : String) (request : WebhookRequest) (db : DB)
    (hbad : request.signature = none
      ∨ ∀ s, request.signature = some s
          → hmacSha256Hex webhookSecret request.rawBody ≠ s) :
    (POST hmacSha256Hex webhookSecret request db).2.1 = db
    ∧ ((∃ p, request.parsedBody = some p)
        → (POST hmacSha256Hex webhookSecret request db).1.status = 401)
    ∧ (request.parsedBody = none
        → (POST hmacSha256Hex webhookSecret request db).1.status = 500) := by
  unfold POST
  cases hpb : request.parsedBody with
  | none =>
      refine ⟨rfl, ?_, fun _ => rfl⟩
      rintro ⟨p, hp⟩
      exact Option.noConfusion hp
  | some p =>
      cases hsg : request.signature with
      | none =>
          refine ⟨rfl, fun _ => rfl, ?_⟩
          intro h
          exact Option.noConfusion h
      | some s =>
          rcases hbad with hnone | hne
          · rw [hsg] at hnone
            exact Option.noConfusion hnone
          · have hs := hne s hsg
            dsimp only
            rw [if_pos hs]
            refine ⟨rfl, fun _ => rfl, ?_⟩
            intro h
            exact Option.noConfusion h

/-- Witness for the amended C3 at a concrete wrongly-signed delivery. -/
theorem signature_enforcement_witness :
    (POST exHmac "sec" exReqBadSig exDB).2.1 = exDB :=
  (signature_enforcement exHmac "sec" exReqBadSig exDB
    (Or.inr (fun s hs => by
      injection hs with h
      rw [← h]
      decide))).1

/-- C8 counterexample: a POST whose body fails `JSON.parse` is answered 500,
not 400: the parse happens first, inside the catch-all `try`. -/
theorem unparseable_body_counterexample :
    exReqBadJson.parsedBody = none
    ∧ (POST exHmac "sec" exReqBadJson exDB).1.status = 500
    ∧ (POST exHmac "sec" exReqBadJson exDB).1.status ≠ 400
    ∧ (POST exHmac "sec" exReqBadJson exDB).2.1 = exDB :=
  ⟨rfl, rfl, by decide, rfl⟩

/-- C8 amended: an unparseable body is rejected with 500 (the generic
unexpected-error response), no `WebhookEvent` row is stored and no
reconciliation is scheduled; 400 is reserved for a parseable body lacking
`meta.event_name`. -/
theorem unparseable_body_rejected (hmacSha256Hex : String → String → String)
    (webhookSecret : String) (request : WebhookRequest) (db : DB)
    (h : request.parsedBody = none) :
    (POST hmacSha256Hex webhookSecret request db).1.status = 500
    ∧ (POST hmacSha256Hex webhookSecret request db).2.1 = db
    ∧ (POST hmacSha256Hex webhookSecret request db).2.2 = none := by
  unfold POST
  rw [h]
  exact ⟨rfl, rfl, rfl⟩

/-- Witness for the amended C8 at the concrete unparseable delivery. -/
theorem unparseable_body_rejected_witness :
    (POST exHmac "sec" exReqBadJson exDB).1.status = 500 :=
  (unparseable_body_rejected exHmac "sec" exReqBadJson exDB rfl).1

theorem countP_upsert_map (l : List Subscription) (d : SubscriptionData) :
    (l.map (fun s => if s.lemonSqueezyId == d.lemonSqueezyId
        then applySubscriptionData d s else s)).countP
      (fun s => s.lemonSqueezyId == d.lemonSqueezyId)
    = l.countP (fun s => s.lemonSqueezyId == d.lemonSqueezyId) := by
  induction l with
  | nil => rfl
  | cons a l ih =>
      rw [List.map_cons, List.countP_cons, List.countP_cons, ih]
      by_cases h : (a.lemonSqueezyId == d.lemonSqueezyId) = true
      · rw [if_pos h, if_pos
          (show ((applySubscriptionData d a).lemonSqueezyId == d.lemonSqueezyId) = true from h),
          if_pos h]
      · rw [if_neg h, if_neg h]

/-- The upsert leaves exactly one row carrying its external id, whenever the
unique constraint held beforehand. -/
theorem upsertSubscription_countP (db : DB) (d : SubscriptionData)
    (h : db.subscriptions.countP (fun s => s.lemonSqueezyId == d.lemonSqueezyId) ≤ 1) :
    (upsertSubscription db d).subscriptions.countP
      (fun s => s.lemonSqueezyId == d.lemonSqueezyId) = 1 := by
  unfold upsertSubscription
  by_cases hex : db.subscriptions.any (fun s => s.lemonSqueezyId == d.lemonSqueezyId) = true
  · rw [if_pos hex]
    dsimp only
    rw [countP_upsert_map]
    obtain ⟨x, hx, hpx⟩ := List.any_eq_true.1 hex
    have hge : 0 < db.subscriptions.countP (fun s => s.lemonSqueezyId == d.lemonSqueezyId) :=
      List.countP_pos_iff.2 ⟨x, hx, hpx⟩
    omega
  · have hex' : db.subscriptions.any (fun s => s.lemonSqueezyId == d.lemonSqueezyId) = false := by
      simpa using hex
    rw [if_neg (by simp [hex'])]
    dsimp only
    rw [List.countP_append]
    have h0 : db.subscriptions.countP (fun s => s.lemonSqueezyId == d.lemonSqueezyId) = 0 :=
      List.countP_eq_zero.2 (List.any_eq_false.1 hex')
    rw [h0]
    simp [insertedSubscription]

/-- On conflict, the conflicting row survives with every data field overwritten. -/
theorem upsertSubscription_update_mem (db : DB) (d : SubscriptionData)
    (r : Subscription) (hmem : r ∈ db.subscriptions)
    (hls : (r.lemonSqueezyId == d.lemonSqueezyId) = true) :
    applySubscriptionData d r ∈ (upsertSubscription db d).subscriptions := by
  unfold upsertSubscription
  rw [if_pos (List.any_eq_true.2 ⟨r, hmem, hls⟩)]
  dsimp only
  have hmap := List.mem_map_of_mem
    (fun s => if s.lemonSqueezyId == d.lemonSqueezyId then applySubscriptionData d s else s) hmem
  simpa [hls] using hmap

/-- After an upsert there is a row carrying exactly the data fields of `d`. -/
theorem upsertSubscription_mem_fields (db : DB) (d : SubscriptionData) :
    ∃ s ∈ (upsertSubscription db d).subscriptions,
      s.lemonSqueezyId = d.lemonSqueezyId ∧ s.userId = d.userId ∧ s.planId = d.planId
      ∧ s.status = d.status ∧ s.renewsAt = d.renewsAt ∧ s.endsAt = d.endsAt
      ∧ s.trialEndsAt = d.trialEndsAt := by
  by_cases hex : db.subscriptions.any (fun s => s.lemonSqueezyId == d.lemonSqueezyId) = true
  · obtain ⟨x, hx, hpx⟩ := List.any_eq_true.1 hex
    refine ⟨applySubscriptionData d x, upsertSubscription_update_mem db d x hx hpx,
      ?_, rfl, rfl, rfl, rfl, rfl, rfl⟩
    simpa using hpx
  · have hex' : db.subscriptions.any (fun s => s.lemonSqueezyId == d.lemonSqueezyId) = false := by
      simpa using hex
    refine ⟨insertedSubscription db d, ?_, rfl, rfl, rfl, rfl, rfl, rfl, rfl⟩
    unfold upsertSubscription
    rw [if_neg (by simp [hex'])]
    exact List.mem_append_right _ (List.mem_singleton_self _)

/-- When no row carries the external id, the upsert appends the new row. -/
theorem upsertSubscription_insert (db : DB) (d : SubscriptionData)
    (hno : db.subscriptions.any (fun s => s.lemonSqueezyId == d.lemonSqueezyId) = false) :
    (upsertSubscription db d).subscriptions
      = db.subscriptions ++ [insertedSubscription db d] := by
  unfold upsertSubscription
  rw [if_neg (by simp [hno])]

/-- C4: Upsert by external id: reconciling two payloads that share the same
external subscription id (`data.id`, stored as `lemonSqueezyId`), against a
database satisfying the unique constraint on that column, leaves exactly one
`Subscription` row for that id, and that row carries the second payload's
status and date fields. -/
theorem upsert_by_external_id (db db1 db2 : DB)
    (p1 p2 : LemonSqueezyWebhookPayload)
    (hid : p1.data.id = p2.data.id)
    (huniq : db.subscriptions.countP (fun s => s.lemonSqueezyId == p2.data.id) ≤ 1)
    (h1 : handleSubscriptionEvent db p1 = .ok db1)
    (h2 : handleSubscriptionEvent db1 p2 = .ok db2) :
    db2.subscriptions.countP (fun s => s.lemonSqueezyId == p2.data.id) = 1
    ∧ ∃ s ∈ db2.subscriptions, s.lemonSqueezyId = p2.data.id
        ∧ s.status = p2.data.attributes.status
        ∧ s.renewsAt = p2.data.attributes.renews_at
        ∧ s.endsAt = p2.data.attributes.ends_at
        ∧ s.trialEndsAt = p2.data.attributes.trial_ends_at := by
  obtain ⟨u1, plan1, hu1, hp1, hdb1⟩ := handleSubscriptionEvent_ok _ _ _ h1
  obtain ⟨u2, plan2, hu2, hp2, hdb2⟩ := handleSubscriptionEvent_ok _ _ _ h2
  subst hdb1
  subst hdb2
  have hid1 : (subscriptionDataOfPayload p1 u1 plan1).lemonSqueezyId = p2.data.id := hid
  have hc1 : (upsertSubscription db (subscriptionDataOfPayload p1 u1 plan1)).subscriptions.countP
      (fun s => s.lemonSqueezyId == p2.data.id) = 1 := by
    rw [← hid1]
    exact upsertSubscription_countP db _ (by rw [hid1]; exact huniq)
  constructor
  · exact upsertSubscription_countP
      (upsertSubscription db (subscriptionDataOfPayload p1 u1 plan1))
      (subscriptionDataOfPayload p2 u2 plan2) (le_of_eq hc1)
  · obtain ⟨s, hs, hls2, _, _, hst, hrn, hen, htr⟩ := upsertSubscription_mem_fields
      (upsertSubscription db (subscriptionDataOfPayload p1 u1 plan1))
      (subscriptionDataOfPayload p2 u2 plan2)
    exact ⟨s, hs, hls2, hst, hrn, hen, htr⟩

/-- Witness for C4: the two concrete payloads for subscription `"s1"`. -/
theorem upsert_by_external_id_witness :
    (upsertSubscription (upsertSubscription exDB
        (subscriptionDataOfPayload exPayload "u1" exPlan))
        (subscriptionDataOfPayload exPayload2 "u2" exPlan)).subscriptions.countP
      (fun s => s.lemonSqueezyId == exPayload2.data.id) = 1 :=
  (upsert_by_external_id exDB
    (upsertSubscription exDB (subscriptionDataOfPayload exPayload "u1" exPlan))
    (upsertSubscription (upsertSubscription exDB
      (subscriptionDataOfPayload exPayload "u1" exPlan))
      (subscriptionDataOfPayload exPayload2 "u2" exPlan))
    exPayload exPayload2 rfl (by decide) rfl rfl).1

/-- C10: Implicit frame effect of the upsert: the `DO UPDATE SET` clause also
overwrites the ownership and plan foreign keys, so reconciling a payload whose
external id already exists but whose `custom_data.user_id` or variant (hence
plan) differs reassigns the stored row's `userId` and `planId`. -/
theorem upsert_overwrites_ownership (db : DB) (p : LemonSqueezyWebhookPayload)
    (r : Subscription) (u : String) (plan : Plan)
    (hmem : r ∈ db.subscriptions) (hls : r.lemonSqueezyId = p.data.id)
    (hu : extractedUserId p.meta = some u)
    (hplan : getPlanByVariantId db (toString p.data.attributes.variant_id) = some plan)
    (_hdiff : r.userId ≠ u ∨ r.planId ≠ plan.id) :
    ∃ db', handleSubscriptionEvent db p = .ok db'
      ∧ ∃ r' ∈ db'.subscriptions, r'.id = r.id ∧ r'.userId = u ∧ r'.planId = plan.id
        ∧ r'.status = p.data.attributes.status := by
  refine ⟨_, handleSubscriptionEvent_ok_of db p u plan hu hplan, ?_⟩
  refine ⟨applySubscriptionData (subscriptionDataOfPayload p u plan) r, ?_,
    rfl, rfl, rfl, rfl⟩
  exact upsertSubscription_update_mem db _ r hmem (by simp [subscriptionDataOfPayload, hls])

/-- Witness for C10: the row for `"s1"` owned by `"u0"` is reassigned to `"u1"`. -/
theorem upsert_overwrites_ownership_witness :
    ∃ db', handleSubscriptionEvent exDBOwned exPayload = .ok db'
      ∧ ∃ r' ∈ db'.subscriptions, r'.id = exSubOld.id ∧ r'.userId = "u1"
        ∧ r'.planId = exPlan.id ∧ r'.status = exPayload.data.attributes.status :=
  upsert_overwrites_ownership exDBOwned exPayload exSubOld "u1" exPlan
    (List.mem_singleton_self _) rfl rfl rfl (Or.inl (by decide))

/-- `extractedUserId` agrees with the spec's extraction except that the JS `||`
additionally collapses an empty-string `user_id` to `null`. -/
theorem extractedUserId_eq_specUserId (meta : Meta) :
    extractedUserId meta
      = match specUserId meta with
        | none => none
        | some uid => if uid = "" then none else some uid := by
  unfold extractedUserId specUserId
  cases meta.custom_data with
  | none => rfl
  | some cd => cases cd.user_id with
    | none => rfl
    | some uid => rfl

/-- C7 counterexample: for a payload whose `meta.custom_data.user_id` is present
but equal to `""`, the stored row's `userId` is `null` rather than the extracted
value `""` — the JS `||` in `storeWebhookEvent` coerces the empty string. -/
theorem stored_userId_counterexample :
    specUserId exPayloadEmptyUser.meta = some ""
    ∧ ((storeWebhookEvent exDB "subscription_created" exPayloadEmptyUser).1).userId = none
    ∧ ((storeWebhookEvent exDB "subscription_created" exPayloadEmptyUser).1).userId
        ≠ specUserId exPayloadEmptyUser.meta :=
  ⟨rfl, rfl, by decide⟩

/-- C7 amended: every stored `WebhookEvent` row carries a `userId` equal to the
payload's `meta.custom_data.user_id` whenever that value is present and
nonempty, and `null` when the custom data is absent, the field is missing, or
it is the empty string; the row is persisted alongside the event. -/
theorem stored_userId (db : DB) (eventName : String)
    (payload : LemonSqueezyWebhookPayload) :
    (storeWebhookEvent db eventName payload).1
        ∈ (storeWebhookEvent db eventName payload).2.webhookEvents
    ∧ ((storeWebhookEvent db eventName payload).1).userId = extractedUserId payload.meta
    ∧ (∀ uid, uid ≠ "" → specUserId payload.meta = some uid
        → ((storeWebhookEvent db eventName payload).1).userId = some uid)
    ∧ (specUserId payload.meta = none
        → ((storeWebhookEvent db eventName payload).1).userId = none)
    ∧ (specUserId payload.meta = some ""
        → ((storeWebhookEvent db eventName payload).1).userId = none) := by
  refine ⟨List.mem_append_right _ (List.mem_singleton_self _), rfl, ?_, ?_, ?_⟩
  · intro uid hne hsp
    show extractedUserId payload.meta = some uid
    rw [extractedUserId_eq_specUserId, hsp]
    simp [hne]
  · intro hsp
    show extractedUserId payload.meta = none
    rw [extractedUserId_eq_specUserId, hsp]
  · intro hsp
    show extractedUserId payload.meta = none
    rw [extractedUserId_eq_specUserId, hsp]
    simp

/-- Witness for the amended C7 at the concrete payload carrying user `"u1"`. -/
theorem stored_userId_witness :
    ((storeWebhookEvent exDB "subscription_created" exPayload).1).userId = some "u1" :=
  (stored_userId exDB "subscription_created" exPayload).2.2.1 "u1" (by decide) rfl

/-- C6: when reconciliation of a stored event fails (here: its plan is missing
from the catalog), the row is marked `processed = true` with `processingError`
set — but precisely because `processed` is `true`, neither the global sweep
query (`getUnprocessedWebhookEvents`, which filters `processed = false`) nor
the per-user recovery query returns it: no query predicate in the code can
fetch previously failed events, contradicting both the claim and
`getUnprocessedEvents`' own documentation ("Returns webhook events that failed
processing or were never processed"). -/
theorem failed_event_invisible_to_recovery :
    ((getWebhookEventById (processWebhookEvent exDBNoPlan 0).1 0).map
        (fun e => (e.processed, e.processingError)))
      = some (true, some "Plan with variantId 9 not found")
    ∧ getUnprocessedWebhookEvents (processWebhookEvent exDBNoPlan 0).1 50 = []
    ∧ getUserUnprocessedSubscriptionWebhooks (processWebhookEvent exDBNoPlan 0).1 "u6" = [] :=
  ⟨by decide, by decide, by decide⟩

/-- For a user owning none of the subscription rows, the joined lookup of
`getUserSubscriptionWithPlan` filters everything out. -/
theorem filterMap_join_nil (db : DB) (u : String)
    (h : ∀ s ∈ db.subscriptions, s.userId ≠ u) :
    (db.subscriptions.filterMap (fun s =>
      match db.plans.find? (fun p => p.id == s.planId) with
      | some p =>
          if s.userId == u && entitledStatuses.contains s.status then
            some (s, p)
          else none
      | none => none)) = [] := by
  apply List.filterMap_eq_nil_iff.2
  intro s hs
  have hbe : (s.userId == u) = false := beq_eq_false_iff_ne.2 (h s hs)
  cases db.plans.find? (fun p => p.id == s.planId) with
  | none => rfl
  | some p => simp [hbe]

theorem getUserSubscriptionWithPlan_none (db : DB) (u : String)
    (h : ∀ s ∈ db.subscriptions, s.userId ≠ u) :
    getUserSubscriptionWithPlan db u = none := by
  unfold getUserSubscriptionWithPlan
  rw [filterMap_join_nil db u h]
  rfl

/-- C5: Recovery closes gaps: for a user with no subscription row but exactly
one pending subscription-lifecycle event naming them with status `"active"`
(and whose plan resolves), `getUserSubscription` runs the per-user recovery
(invoked once, on the single direct-lookup miss), reconciles the pending event
synchronously, and the one re-query returns the now-entitled subscription
joined with its plan in the same call. -/
theorem recovery_closes_gaps (db : DB) (u : String) (ev : WebhookEvent) (plan : Plan)
    (hNoSub : ∀ s ∈ db.subscriptions, s.userId ≠ u)
    (hFresh : ∀ s ∈ db.subscriptions, s.lemonSqueezyId ≠ ev.body.data.id)
    (hPending : getUserUnprocessedSubscriptionWebhooks db u = [ev])
    (hFind : getWebhookEventById db ev.id = some ev)
    (hname : ev.body.meta.event_name = some ev.eventName)
    (huser : extractedUserId ev.body.meta = some u)
    (hstatus : ev.body.data.attributes.status = "active")
    (hplan : getPlanByVariantId db (toString ev.body.data.attributes.variant_id) = some plan)
    (hPlanById : db.plans.find? (fun q => q.id == plan.id) = some plan) :
    ∃ s, (getUserSubscription db u).1 = some (s, plan)
      ∧ s.userId = u ∧ s.status = "active" ∧ s.lemonSqueezyId = ev.body.data.id := by
  have hevsP : ev ∈ getUserUnprocessedSubscriptionWebhooks db u := by
    rw [hPending]
    exact List.mem_singleton_self _
  have hevProp := (List.mem_filter.1 hevsP).2
  simp only [Bool.and_eq_true] at hevProp
  obtain ⟨⟨_hevu, hevp'⟩, hevs⟩ := hevProp
  have hevp : ev.processed = false := by simpa using hevp'
  have hAnyFalse : db.subscriptions.any (fun s =>
      s.lemonSqueezyId == (subscriptionDataOfPayload ev.body u plan).lemonSqueezyId) = false := by
    apply List.any_eq_false.2
    intro x hx
    simp only [subscriptionDataOfPayload]
    exact fun hbe => hFresh x hx (by simpa using hbe)
  have hstep : (processWebhookEvent db ev.id).1
      = markWebhookEventAsProcessed
          (upsertSubscription db (subscriptionDataOfPayload ev.body u plan)) ev.id := by
    unfold processWebhookEvent
    rw [hFind]
    simp only [hevp, Bool.false_eq_true, if_false]
    rw [hname]
    dsimp only
    rw [if_pos hevs, handleSubscriptionEvent_ok_of db ev.body u plan huser hplan]
  have hrun : processUserPendingWebhooks db u = ((processWebhookEvent db ev.id).1, true) := by
    unfold processUserPendingWebhooks
    rw [hPending]
    rfl
  have e1 : (markWebhookEventAsProcessed
      (upsertSubscription db (subscriptionDataOfPayload ev.body u plan)) ev.id).subscriptions
      = db.subscriptions ++ [insertedSubscription db (subscriptionDataOfPayload ev.body u plan)] := by
    show (upsertSubscription db (subscriptionDataOfPayload ev.body u plan)).subscriptions = _
    exact upsertSubscription_insert db _ hAnyFalse
  have e2 : (markWebhookEventAsProcessed
      (upsertSubscription db (subscriptionDataOfPayload ev.body u plan)) ev.id).plans
      = db.plans := by
    show (upsertSubscription db (subscriptionDataOfPayload ev.body u plan)).plans = db.plans
    exact upsertSubscription_plans db _
  have hfind2 : db.plans.find? (fun p =>
      p.id == (insertedSubscription db (subscriptionDataOfPayload ev.body u plan)).planId)
      = some plan := hPlanById
  have hcond : ((insertedSubscription db (subscriptionDataOfPayload ev.body u plan)).userId == u
      && entitledStatuses.contains
          (insertedSubscription db (subscriptionDataOfPayload ev.body u plan)).status) = true := by
    show ((u == u) && entitledStatuses.contains ev.body.data.attributes.status) = true
    rw [hstatus]
    simp [entitledStatuses]
  have hq2 : getUserSubscriptionWithPlan
      (markWebhookEventAsProcessed
        (upsertSubscription db (subscriptionDataOfPayload ev.body u plan)) ev.id) u
      = some (insertedSubscription db (subscriptionDataOfPayload ev.body u plan), plan) := by
    unfold getUserSubscriptionWithPlan
    rw [e1, e2, List.filterMap_append, filterMap_join_nil db u hNoSub]
    simp only [List.filterMap_cons, List.filterMap_nil]
    rw [hfind2]
    dsimp only
    rw [if_pos hcond]
    rfl
  refine ⟨insertedSubscription db (subscriptionDataOfPayload ev.body u plan),
    ?_, rfl, hstatus, rfl⟩
  unfold getUserSubscription
  rw [getUserSubscriptionWithPlan_none db u hNoSub]
  dsimp only
  rw [hrun]
  dsimp only
  rw [if_pos rfl]
  dsimp only
  rw [hstep, hq2]

/-- Witness for C5: the concrete pending event for user `"u1"` in `exDBPending`. -/
theorem recovery_closes_gaps_witness :
    ∃ s, (getUserSubscription exDBPending "u1").1 = some (s, exPlan)
      ∧ s.userId = "u1" ∧ s.status = "active"
      ∧ s.lemonSqueezyId = exEvent.body.data.id :=
  recovery_closes_gaps exDBPending "u1" exEvent exPlan
    (fun s hs => absurd hs (List.not_mem_nil s))
    (fun s hs => absurd hs (List.not_mem_nil s))
    (by decide) rfl rfl (by decide) rfl (by decide) (by decide)

end SaasWebhooks
